import Mathlib

set_option maxHeartbeats 1000000

/-!
Verification of the pose-tracking core of the dancing-creatures repository
(src/components/PoseEstimation.tsx): the keypoint normalizer, the
per-cycle reconcile step of the pose tracker (matching, spawning,
eviction), and the render-loop reentrancy guard, as a shallow embedding.

Conventions of the embedding:
  * JS numbers holding coordinates, scores and thresholds are real numbers.
  * `Date.now()` timestamps are integers (milliseconds).
  * A JS value that may be `Infinity` (the pose distance) is an
    `Option ℝ` with `none` standing for `Infinity`; the only operations the
    source applies to it are comparisons `< bound` against finite bounds,
    which are false for `Infinity`, i.e. false on `none` (`distLT`).
  * `Math.random()`-generated ids and hues are supplied by an oracle
    `gen : ℕ → String × ℕ` indexed by the number of poses spawned so far
    in the cycle.
-/

/-- A keypoint in canvas space: a named joint with coordinates and an
optional confidence score (the `Keypoint` interface of the source). -/
structure Keypoint where
  name : String
  x : ℝ
  y : ℝ
  score : Option ℝ

/-- A tracked pose: stable id, current keypoints, last-seen timestamp in
milliseconds, and the creature hue (the `TrackedPose` interface). -/
structure TrackedPose where
  id : String
  keypoints : List Keypoint
  lastSeen : ℤ
  hue : ℕ

/-- A candidate pose for one detected body this frame, after
normalization: keypoints only, no identity. -/
structure NormPose where
  keypoints : List Keypoint

/-- The reference joint pairs of `calculatePoseDistance` (the source's
`keyPointPairs`). -/
def keyPointPairs : List (String × String) :=
  [("nose", "nose"), ("left_shoulder", "left_shoulder"),
   ("right_shoulder", "right_shoulder")]

/-- Euclidean distance between two keypoints in canvas pixels
(`Math.sqrt(Math.pow(kp1.x - kp2.x, 2) + Math.pow(kp1.y - kp2.y, 2))`). -/
noncomputable def jointDist (kp1 kp2 : Keypoint) : ℝ :=
  Real.sqrt ((kp1.x - kp2.x) ^ 2 + (kp1.y - kp2.y) ^ 2)

/-- One step of the accumulation inside `calculatePoseDistance`: when both
poses have the pair's joint, add its distance to `totalDistance` and bump
`validPairs`. -/
noncomputable def distStep (pose1 pose2 : List Keypoint) (acc : ℝ × ℕ)
    (pr : String × String) : ℝ × ℕ :=
  match pose1.find? (fun kp => kp.name == pr.1),
        pose2.find? (fun kp => kp.name == pr.2) with
  | some kp1, some kp2 => (acc.1 + jointDist kp1 kp2, acc.2 + 1)
  | _, _ => acc

/-- The source's `calculatePoseDistance`: mean distance over the reference
joint pairs present in both poses; `none` models the `Infinity` returned
when `validPairs` is zero. -/
noncomputable def calculatePoseDistance (pose1 pose2 : List Keypoint) :
    Option ℝ :=
  let acc := keyPointPairs.foldl (distStep pose1 pose2) (0, 0)
  if 0 < acc.2 then some (acc.1 / (acc.2 : ℝ)) else none

/-- Distances between the joints of `l` present by name in both poses;
stated from the spec's words for the refinement claim about
`calculatePoseDistance`. -/
noncomputable def refDistancesOn (pose1 pose2 : List Keypoint)
    (l : List (String × String)) : List ℝ :=
  l.filterMap (fun pr =>
    match pose1.find? (fun kp => kp.name == pr.1),
          pose2.find? (fun kp => kp.name == pr.2) with
    | some kp1, some kp2 => some (jointDist kp1 kp2)
    | _, _ => none)

/-- The spec's description of the distance: the mean Euclidean distance, in
canvas pixels, over the reference joints (nose and both shoulders) present
by name in both lists; infinite (`none`) when no reference joint is shared. -/
noncomputable def specPoseDistance (pose1 pose2 : List Keypoint) : Option ℝ :=
  if refDistancesOn pose1 pose2 keyPointPairs = [] then none
  else some ((refDistancesOn pose1 pose2 keyPointPairs).sum /
    ((refDistancesOn pose1 pose2 keyPointPairs).length : ℝ))

/-- Comparison of a possibly-infinite distance with a finite bound:
`Infinity < bound` is false in JS, so `none` (Infinity) compares false. -/
def distLT : Option ℝ → ℝ → Prop
  | none, _ => False
  | some d, bound => d < bound

open Classical in
/-- The scan inside the matching loop: walk the tracked poses carrying the
running `(closestDistance, closestPoseIndex)` accumulator, starting from
`(40, -1)`; `i` is the index of the head of the remaining list. -/
noncomputable def scanAux (ckps : List Keypoint) :
    List TrackedPose → ℕ → ℝ × ℤ → ℝ × ℤ
  | [], _, acc => acc
  | t :: ts, i, acc =>
      scanAux ckps ts (i + 1)
        (match calculatePoseDistance ckps t.keypoints with
         | none => acc
         | some d => if d < acc.1 then (d, (i : ℤ)) else acc)

/-- The source's per-candidate scan over `updatedTrackedPoses`:
`closestDistance` starts at 40 and `closestPoseIndex` at -1. -/
noncomputable def scanClosest (ckps : List Keypoint)
    (poses : List TrackedPose) : ℝ × ℤ :=
  scanAux ckps poses 0 (40, -1)

/-- The source's in-place update
`updatedTrackedPoses[i] = { ...old, keypoints, lastSeen: now }`:
replace the keypoints and refresh the timestamp of the pose at index `i`,
leaving id and hue as they were (out-of-range `i` changes nothing). -/
def updateMatched : List TrackedPose → ℕ → List Keypoint → ℤ →
    List TrackedPose
  | [], _, _, _ => []
  | t :: ts, 0, kps, nw => { t with keypoints := kps, lastSeen := nw } :: ts
  | t :: ts, i + 1, kps, nw => t :: updateMatched ts i kps nw

/-- The source's duplicate-suppression test `isTooClose`: some tracked pose
is within 100px of the candidate. -/
def isTooClose (ckps : List Keypoint) (poses : List TrackedPose) : Prop :=
  ∃ p ∈ poses, distLT (calculatePoseDistance ckps p.keypoints) 100

open Classical in
/-- One iteration of the source's `currentPoses.forEach` matching loop on
the state `(updatedTrackedPoses, spawn count)`: match the candidate to the
closest tracked pose when the minimum distance is under the acquisition
threshold (40px), otherwise spawn a new pose when the candidate is not
within the duplicate-suppression threshold (100px) of any tracked pose and
has at least 8 keypoints. The spawn count indexes the id/hue oracle `gen`
standing for `Math.random()`. -/
noncomputable def matchStep (now : ℤ) (gen : ℕ → String × ℕ)
    (st : List TrackedPose × ℕ) (c : NormPose) : List TrackedPose × ℕ :=
  if (scanClosest c.keypoints st.1).2 ≠ -1 ∧
      (scanClosest c.keypoints st.1).1 < 40 then
    (updateMatched st.1 (scanClosest c.keypoints st.1).2.toNat
      c.keypoints now, st.2)
  else if ¬ isTooClose c.keypoints st.1 ∧ 8 ≤ c.keypoints.length then
    (st.1 ++ [⟨(gen st.2).1, c.keypoints, now, (gen st.2).2⟩], st.2 + 1)
  else st

/-- One reconcile cycle of the tracker (the source's tracked-pose update):
run the matching loop over the cycle's candidates, then evict poses not
seen within the last 1500ms and poses with fewer than 7 keypoints. -/
noncomputable def reconcile (now : ℤ) (gen : ℕ → String × ℕ)
    (trackedPoses : List TrackedPose) (currentPoses : List NormPose) :
    List TrackedPose :=
  ((currentPoses.foldl (matchStep now gen) (trackedPoses, 0)).1.filter
      (fun p => decide (now - p.lastSeen < 1500))).filter
    (fun p => decide (7 ≤ p.keypoints.length))

open Classical in
/-- Index of the tracked pose a candidate updates in the state `st` of the
matching loop (-1 when it updates none): the condition of the update
branch of `matchStep`. -/
noncomputable def matchedIndex (c : NormPose) (st : List TrackedPose × ℕ) :
    ℤ :=
  if (scanClosest c.keypoints st.1).2 ≠ -1 ∧
      (scanClosest c.keypoints st.1).1 < 40 then
    (scanClosest c.keypoints st.1).2
  else -1

/-- The matching loop instrumented with the list of indices of the tracked
poses each candidate updates (-1 for a candidate that updates none); the
pose state evolves exactly by `matchStep`. -/
noncomputable def matchAux (now : ℤ) (gen : ℕ → String × ℕ) :
    List NormPose → List TrackedPose × ℕ → List ℤ →
    (List TrackedPose × ℕ) × List ℤ
  | [], st, log => (st, log)
  | c :: cs, st, log =>
      matchAux now gen cs (matchStep now gen st c)
        (log ++ [matchedIndex c st])

/-- Which tracked-pose index each candidate of a cycle updates, in candidate
order (-1 when the candidate updates none). -/
noncomputable def matchTrace (now : ℤ) (gen : ℕ → String × ℕ)
    (poses : List TrackedPose) (currentPoses : List NormPose) : List ℤ :=
  (matchAux now gen currentPoses (poses, 0) []).2

/-- A succession of reconcile cycles: each cycle carries its timestamp, its
id/hue oracle and its candidate list. -/
noncomputable def runCycles (poses : List TrackedPose)
    (cycles : List (ℤ × (ℕ → String × ℕ) × List NormPose)) :
    List TrackedPose :=
  cycles.foldl (fun ps cyc => reconcile cyc.1 cyc.2.1 ps cyc.2.2) poses

/-- A raw detector keypoint in source-video pixel space: the detector's
name and score fields are optional. -/
structure RawKeypoint where
  name : Option String
  x : ℝ
  y : ℝ
  score : Option ℝ

/-- A raw detector pose. -/
structure RawPose where
  keypoints : List RawKeypoint

/-- The source's mean-confidence value
`pose.keypoints.reduce((sum, kp) => sum + (kp.score || 0), 0) /
pose.keypoints.length` (an empty pose yields 0/0 = 0 here; in JS NaN,
which fails the > 0.45 gate just the same). -/
noncomputable def avgScore (p : RawPose) : ℝ :=
  (p.keypoints.map (fun kp => kp.score.getD 0)).sum /
    (p.keypoints.length : ℝ)

/-- The source's per-joint confidence gate `kp.score && kp.score > 0.4`:
the score exists and exceeds 0.4 (a score of 0 is falsy in JS and fails
`> 0.4` just the same). -/
def scoreOk : Option ℝ → Prop
  | some s => (0.4 : ℝ) < s
  | none => False

open Classical in
/-- The source's keypoint transform for one raw pose: drop keypoints whose
score fails the 0.4 floor, then map to mirrored canvas coordinates
`x = canvasW - (x / videoW) * canvasW`, `y = (y / videoH) * canvasH`. -/
noncomputable def normalizePose (cw ch vw vh : ℝ) (p : RawPose) : NormPose :=
  ⟨(p.keypoints.filter (fun kp => decide (scoreOk kp.score))).map (fun kp =>
    ⟨kp.name.getD "unknown", cw - (kp.x / vw) * cw, (kp.y / vh) * ch,
      kp.score⟩)⟩

open Classical in
/-- The source's `currentPoses` pipeline: keep the raw poses whose mean
score exceeds 0.45, normalize each, and keep the results with at least 7
remaining keypoints. -/
noncomputable def candidatePoses (cw ch vw vh : ℝ) (poses : List RawPose) :
    List NormPose :=
  ((poses.filter (fun p => decide (avgScore p > 0.45))).map
      (normalizePose cw ch vw vh)).filter
    (fun p => decide (7 ≤ p.keypoints.length))

open Classical in
/-- The quality gate as the spec states it, per pose: a raw pose yields a
candidate exactly when its mean confidence exceeds 0.45 and at least 7
keypoints survive the per-joint floor; otherwise it yields nothing. -/
noncomputable def normOne (cw ch vw vh : ℝ) (p : RawPose) : Option NormPose :=
  if avgScore p > 0.45 then
    if 7 ≤ (normalizePose cw ch vw vh p).keypoints.length then
      some (normalizePose cw ch vw vh p)
    else none
  else none

/-- One full detection cycle from the detector call's outcome: a throw or
rejection lands in the catch block, which leaves the tracked set as it
was; a returned pose list is normalized and reconciled. -/
noncomputable def cycleResult (res : Except Unit (List RawPose))
    (cw ch vw vh : ℝ) (now : ℤ) (gen : ℕ → String × ℕ)
    (poses : List TrackedPose) : List TrackedPose :=
  match res with
  | .error _ => poses
  | .ok raw => reconcile now gen poses (candidatePoses cw ch vw vh raw)

/-- What a loop step did: whether it invoked the detector, and which
tracked-pose list it drew, if it drew at all. -/
structure TickEffect where
  calledDetector : Bool
  drew : Option (List TrackedPose)

/-- State of the render loop: the readiness flags the guard reads, the
reentrancy flag `isDetecting`, the frame counter, the number of detector
invocations in flight, and the tracked-pose set. -/
structure LoopState where
  hasDetector : Bool
  hasVideo : Bool
  hasCanvas : Bool
  videoReady : Bool
  hasCtx : Bool
  isLoading : Bool
  isDetecting : Bool
  frameCount : ℕ
  inFlight : ℕ
  trackedPoses : List TrackedPose

/-- A tick of `detectPose` up to its suspension point (the awaited
detector call) or its end: the guard clause, the frame-counter increment,
the missing-context early exit, and either the detector invocation on
every 15th frame or the immediate redraw of the current tracked poses. -/
def tick (s : LoopState) : LoopState × TickEffect :=
  if !s.hasDetector || !s.hasVideo || !s.hasCanvas || !s.videoReady ||
      s.isDetecting || s.isLoading then
    (s, ⟨false, none⟩)
  else
    if !s.hasCtx then
      ({ s with frameCount := s.frameCount + 1 }, ⟨false, none⟩)
    else if (s.frameCount + 1) % 15 == 0 then
      ({ s with
          frameCount := s.frameCount + 1
          isDetecting := true
          inFlight := s.inFlight + 1 }, ⟨true, none⟩)
    else
      ({ s with frameCount := s.frameCount + 1 },
       ⟨false, some s.trackedPoses⟩)

/-- Resumption of `detectPose` after the awaited detector call settles: on
success reconcile, then draw the closure's pre-reconcile `trackedPoses`;
on a throw the catch block skips both; either way the reentrancy flag is
released and the in-flight call is done. -/
noncomputable def finishDetection (res : Except Unit (List RawPose))
    (cw ch vw vh : ℝ) (now : ℤ) (gen : ℕ → String × ℕ) (s : LoopState) :
    LoopState × TickEffect :=
  match res with
  | .error _ =>
      ({ s with isDetecting := false, inFlight := s.inFlight - 1 },
       ⟨false, none⟩)
  | .ok raw =>
      ({ s with
          trackedPoses := reconcile now gen s.trackedPoses
            (candidatePoses cw ch vw vh raw),
          isDetecting := false, inFlight := s.inFlight - 1 },
       ⟨false, some s.trackedPoses⟩)

/-- The loop's step relation: a scheduled tick fires, an in-flight
detector call settles, or the environment toggles the readiness flags
(model loading, camera and canvas lifecycle). -/
inductive LoopStep : LoopState → LoopState → Prop
  | tick (s : LoopState) : LoopStep s (tick s).1
  | finish (s : LoopState) (res : Except Unit (List RawPose))
      (cw ch vw vh : ℝ) (now : ℤ) (gen : ℕ → String × ℕ)
      (h : 0 < s.inFlight) :
      LoopStep s (finishDetection res cw ch vw vh now gen s).1
  | env (s : LoopState) (d v c r x l : Bool) :
      LoopStep s { s with
        hasDetector := d
        hasVideo := v
        hasCanvas := c
        videoReady := r
        hasCtx := x
        isLoading := l }

/-- States the loop can reach from its mount state: no detection running,
no call in flight, frame counter zero, no tracked poses, any flags. -/
inductive ReachableState : LoopState → Prop
  | init (d v c r x l : Bool) :
      ReachableState ⟨d, v, c, r, x, l, false, 0, 0, []⟩
  | step {s t : LoopState} : ReachableState s → LoopStep s t →
      ReachableState t

/-- Iterated ticks. -/
def tickN : ℕ → LoopState → LoopState
  | 0, s => s
  | n + 1, s => tickN n (tick s).1

/-- A fully confident keypoint at a concrete position. -/
def kpt (nm : String) (x y : ℝ) : Keypoint := ⟨nm, x, y, some 1⟩

/-- Seven keypoints on joints the distance metric does not reference. -/
def pad7 : List Keypoint :=
  [kpt "left_elbow" 0 0, kpt "right_elbow" 0 0, kpt "left_wrist" 0 0,
   kpt "right_wrist" 0 0, kpt "left_hip" 0 0, kpt "right_hip" 0 0,
   kpt "left_knee" 0 0]

/-- A fixed id/hue oracle for concrete runs. -/
def gen0 : ℕ → String × ℕ := fun n => ("fresh" ++ toString n, 200)

/-- A tracked pose with seven unreferenced keypoints, last seen at t=100. -/
def poseQuiet : TrackedPose := ⟨"p0", pad7, 100, 5⟩

/-- A tracked pose whose only keypoint is a nose at the origin. -/
def poseNose : TrackedPose := ⟨"p1", [kpt "nose" 0 0], 0, 7⟩

/-- A candidate whose only keypoint is a nose at the origin. -/
def candOrigin : NormPose := ⟨[kpt "nose" 0 0]⟩

/-- A candidate whose only keypoint is a nose at x = 10. -/
def candTen : NormPose := ⟨[kpt "nose" 10 0]⟩

/-- A candidate with seven keypoints, none of them reference joints. -/
def candSeven : NormPose := ⟨pad7⟩

/-- An eight-keypoint candidate with its nose at the origin. -/
def candNose0 : NormPose := ⟨kpt "nose" 0 0 :: pad7⟩

/-- An eight-keypoint candidate with its nose at x = 50. -/
def candNose50 : NormPose := ⟨kpt "nose" 50 0 :: pad7⟩

/-- An eight-keypoint tracked pose with its nose at the origin. -/
def poseNose8 : TrackedPose := ⟨"pp", kpt "nose" 0 0 :: pad7, 0, 3⟩

/-- An eight-keypoint candidate without any reference joint. -/
def cand8 : NormPose := ⟨kpt "right_knee" 0 0 :: pad7⟩

/-- A raw keypoint named `nm` at the origin with score `s`. -/
def rawKp (nm : String) (s : ℝ) : RawKeypoint := ⟨some nm, 0, 0, some s⟩

/-- A raw detector pose with eight fully confident keypoints. -/
def rawPose8 : RawPose :=
  ⟨[rawKp "k1" 1, rawKp "k2" 1, rawKp "k3" 1, rawKp "k4" 1,
    rawKp "k5" 1, rawKp "k6" 1, rawKp "k7" 1, rawKp "k8" 1]⟩

/-- The render loop's mount state with every readiness flag up and
loading finished. -/
def sReady : LoopState :=
  ⟨true, true, true, true, true, false, false, 0, 0, []⟩

/-- Fifteen ticks into the ready loop: the fifteenth tick has just
invoked the detector, so a call is in flight and the guard is set. -/
def sDetecting1 : LoopState := tickN 15 sReady

/-- The in-flight call returns one confident pose, which the reconcile
spawns; fifteen further ticks fire, the last invoking the detector again:
a reachable state with the guard set and a nonempty tracked set. -/
noncomputable def sDetecting2 : LoopState :=
  tickN 15 (finishDetection (.ok [rawPose8]) 1 1 1 1 0 gen0 sDetecting1).1

set_option linter.unnecessarySeqFocus false in
lemma distStep_foldl (pose1 pose2 : List Keypoint)
    (l : List (String × String)) (a : ℝ) (n : ℕ) :
    l.foldl (distStep pose1 pose2) (a, n) =
      (a + (refDistancesOn pose1 pose2 l).sum,
       n + (refDistancesOn pose1 pose2 l).length) := by
  induction l generalizing a n with
  | nil => simp [refDistancesOn]
  | cons pr rest ih =>
      rcases h1 : pose1.find? (fun kp => kp.name == pr.1) with _ | kp1 <;>
        rcases h2 : pose2.find? (fun kp => kp.name == pr.2) with _ | kp2 <;>
          simp only [List.foldl_cons, distStep, h1, h2, refDistancesOn,
            List.filterMap_cons] <;>
        rw [ih] <;>
        simp only [refDistancesOn, List.sum_cons, List.length_cons,
          Prod.mk.injEq] <;>
        exact ⟨by ring, by ring⟩

/-- C4: `calculatePoseDistance`, applied to any two keypoint lists, returns
the mean Euclidean distance in canvas pixels over the reference joints
(nose, left shoulder, right shoulder) present by name in both lists, and
Infinity (modelled by `none`) when no reference joint is present in both. -/
theorem c4_distance_is_mean_over_shared_ref_joints
    (pose1 pose2 : List Keypoint) :
    calculatePoseDistance pose1 pose2 = specPoseDistance pose1 pose2 := by
  unfold calculatePoseDistance specPoseDistance
  rw [distStep_foldl]
  rcases h : refDistancesOn pose1 pose2 keyPointPairs with _ | ⟨d, ds⟩ <;>
    simp [h]

lemma matchStep_update (now : ℤ) (gen : ℕ → String × ℕ)
    (st : List TrackedPose × ℕ) (c : NormPose)
    (h1 : (scanClosest c.keypoints st.1).2 ≠ -1)
    (h2 : (scanClosest c.keypoints st.1).1 < 40) :
    matchStep now gen st c =
      (updateMatched st.1 (scanClosest c.keypoints st.1).2.toNat
        c.keypoints now, st.2) := by
  simp only [matchStep]
  rw [if_pos ⟨h1, h2⟩]

lemma matchStep_spawn (now : ℤ) (gen : ℕ → String × ℕ)
    (st : List TrackedPose × ℕ) (c : NormPose)
    (h : ¬ ((scanClosest c.keypoints st.1).2 ≠ -1 ∧
      (scanClosest c.keypoints st.1).1 < 40))
    (h2 : ¬ isTooClose c.keypoints st.1) (h3 : 8 ≤ c.keypoints.length) :
    matchStep now gen st c =
      (st.1 ++ [⟨(gen st.2).1, c.keypoints, now, (gen st.2).2⟩],
       st.2 + 1) := by
  simp only [matchStep]
  rw [if_neg h, if_pos ⟨h2, h3⟩]

lemma matchStep_skip (now : ℤ) (gen : ℕ → String × ℕ)
    (st : List TrackedPose × ℕ) (c : NormPose)
    (h : ¬ ((scanClosest c.keypoints st.1).2 ≠ -1 ∧
      (scanClosest c.keypoints st.1).1 < 40))
    (h2 : ¬ (¬ isTooClose c.keypoints st.1 ∧ 8 ≤ c.keypoints.length)) :
    matchStep now gen st c = st := by
  simp only [matchStep]
  rw [if_neg h, if_neg h2]

lemma updateMatched_length (ps : List TrackedPose) (i : ℕ)
    (kps : List Keypoint) (nw : ℤ) :
    (updateMatched ps i kps nw).length = ps.length := by
  induction ps generalizing i with
  | nil => rfl
  | cons t ts ih =>
      cases i with
      | zero => rfl
      | succ j => simp [updateMatched, ih]

lemma matchStep_cases (now : ℤ) (gen : ℕ → String × ℕ)
    (st : List TrackedPose × ℕ) (c : NormPose) :
    (matchStep now gen st c).1.length = st.1.length ∨
      matchStep now gen st c =
        (st.1 ++ [⟨(gen st.2).1, c.keypoints, now, (gen st.2).2⟩],
         st.2 + 1) := by
  by_cases h : (scanClosest c.keypoints st.1).2 ≠ -1 ∧
      (scanClosest c.keypoints st.1).1 < 40
  · left
    rw [matchStep_update now gen st c h.1 h.2]
    exact updateMatched_length _ _ _ _
  · by_cases h2 : ¬ isTooClose c.keypoints st.1 ∧ 8 ≤ c.keypoints.length
    · right
      exact matchStep_spawn now gen st c h h2.1 h2.2
    · left
      rw [matchStep_skip now gen st c h h2]

lemma reconcile_mem_fresh (now : ℤ) (gen : ℕ → String × ℕ)
    (poses : List TrackedPose) (cs : List NormPose) (p : TrackedPose)
    (hp : p ∈ reconcile now gen poses cs) : now - p.lastSeen < 1500 := by
  rw [reconcile] at hp
  rcases List.mem_filter.mp hp with ⟨hp1, _⟩
  rcases List.mem_filter.mp hp1 with ⟨_, h⟩
  exact of_decide_eq_true h

/-- C2: for every tracked pose `t` in the set returned by a reconcile
cycle executed at time `now`, `now - t.lastSeen` is within the 1500ms
staleness window; a pose aged past the window is never in the result,
whatever the candidates of the cycle were. -/
theorem c2_returned_poses_within_staleness_window
    (now : ℤ) (gen : ℕ → String × ℕ) (poses : List TrackedPose)
    (currentPoses : List NormPose) :
    (∀ p ∈ reconcile now gen poses currentPoses,
      now - p.lastSeen < 1500) ∧
    ∀ p : TrackedPose, 1500 ≤ now - p.lastSeen →
      p ∉ reconcile now gen poses currentPoses := by
  refine ⟨fun p hp => reconcile_mem_fresh now gen poses currentPoses p hp,
    ?_⟩
  intro p hage hp
  exact absurd (reconcile_mem_fresh now gen poses currentPoses p hp)
    (by linarith)

/-- C8: a reconcile cycle with an empty candidate list only filters the
tracked set (staleness window and keypoint count); any succession of such
cycles yields a sublist of the original poses, so every surviving pose
keeps its keypoints, id and hue (indeed its whole record) verbatim. -/
theorem c8_empty_candidates_only_age
    (gen : ℕ → String × ℕ) (poses : List TrackedPose) (now : ℤ) :
    reconcile now gen poses [] =
      (poses.filter (fun p => decide (now - p.lastSeen < 1500))).filter
        (fun p => decide (7 ≤ p.keypoints.length)) ∧
    ∀ nows : List ℤ,
      List.Sublist
        (nows.foldl (fun ps nw => reconcile nw gen ps []) poses)
        poses := by
  refine ⟨rfl, ?_⟩
  intro nows
  induction nows generalizing poses with
  | nil => simp
  | cons nw rest ih =>
      simp only [List.foldl_cons]
      exact (ih _).trans
        ((List.filter_sublist _).trans (List.filter_sublist _))

/-- C10: every tracked pose in the set produced by a reconcile cycle has
at least 7 keypoints (the result is filtered by keypoint count as well as
staleness), and whenever the matching loop grows the tracked list — the
spawn path — the appended pose carries the candidate's keypoints and
there are at least 8 of them. -/
theorem c10_keypoint_count_floor
    (now : ℤ) (gen : ℕ → String × ℕ) (poses : List TrackedPose)
    (currentPoses : List NormPose) :
    (∀ p ∈ reconcile now gen poses currentPoses,
      7 ≤ p.keypoints.length) ∧
    ∀ st : List TrackedPose × ℕ, ∀ c : NormPose,
      (matchStep now gen st c).1.length = st.1.length + 1 →
      (matchStep now gen st c).1.getLast? =
        some ⟨(gen st.2).1, c.keypoints, now, (gen st.2).2⟩ ∧
      8 ≤ c.keypoints.length := by
  constructor
  · intro p hp
    rw [reconcile] at hp
    rcases List.mem_filter.mp hp with ⟨_, h⟩
    exact of_decide_eq_true h
  · intro st c hlen
    rcases matchStep_cases now gen st c with h | h
    · omega
    · have h3 : 8 ≤ c.keypoints.length := by
        by_contra hno
        by_cases hcond : (scanClosest c.keypoints st.1).2 ≠ -1 ∧
            (scanClosest c.keypoints st.1).1 < 40
        · rw [matchStep_update now gen st c hcond.1 hcond.2] at hlen
          simp [updateMatched_length] at hlen
        · rw [matchStep_skip now gen st c hcond (by tauto)] at hlen
          omega
      rw [h]
      simpa using h3

lemma cpd_nose_nose (a b : ℝ) :
    calculatePoseDistance [kpt "nose" a 0] [kpt "nose" b 0] =
      some (Real.sqrt ((a - b) ^ 2)) := by
  simp [calculatePoseDistance, keyPointPairs, distStep, List.find?, kpt,
    jointDist]

lemma cpd_nosepad_nosepad (a b : ℝ) :
    calculatePoseDistance (kpt "nose" a 0 :: pad7)
      (kpt "nose" b 0 :: pad7) = some (Real.sqrt ((a - b) ^ 2)) := by
  simp [calculatePoseDistance, keyPointPairs, distStep, List.find?, kpt,
    pad7, jointDist]

lemma cpd_left_pad7 (l : List Keypoint) :
    calculatePoseDistance pad7 l = none := by
  simp [calculatePoseDistance, keyPointPairs, distStep, List.find?, kpt,
    pad7]

lemma cpd_right_pad7 (l : List Keypoint) :
    calculatePoseDistance l pad7 = none := by
  have h1 : pad7.find? (fun kp => kp.name == "nose") = none := by
    simp [pad7, kpt, List.find?]
  have h2 : pad7.find? (fun kp => kp.name == "left_shoulder") = none := by
    simp [pad7, kpt, List.find?]
  have h3 : pad7.find? (fun kp => kp.name == "right_shoulder") = none := by
    simp [pad7, kpt, List.find?]
  rcases ha : l.find? (fun kp => kp.name == "nose") with _ | kpa <;>
    rcases hb : l.find? (fun kp => kp.name == "left_shoulder") with _ | kpb <;>
      rcases hc : l.find? (fun kp => kp.name == "right_shoulder")
          with _ | kpc <;>
        simp [calculatePoseDistance, keyPointPairs, distStep, ha, hb, hc,
          h1, h2, h3]

lemma scanClosest_nil (ckps : List Keypoint) :
    scanClosest ckps [] = (40, -1) := rfl

lemma scanClosest_single_near (ckps : List Keypoint) (t : TrackedPose)
    (d : ℝ) (h : calculatePoseDistance ckps t.keypoints = some d)
    (hd : d < 40) : scanClosest ckps [t] = (d, 0) := by
  simp [scanClosest, scanAux, h, hd]

lemma scanClosest_single_far (ckps : List Keypoint) (t : TrackedPose)
    (d : ℝ) (h : calculatePoseDistance ckps t.keypoints = some d)
    (hd : ¬ d < 40) : scanClosest ckps [t] = (40, -1) := by
  simp [scanClosest, scanAux, h, hd]

lemma scanClosest_single_inf (ckps : List Keypoint) (t : TrackedPose)
    (h : calculatePoseDistance ckps t.keypoints = none) :
    scanClosest ckps [t] = (40, -1) := by
  simp [scanClosest, scanAux, h]

lemma matchAux_fst (now : ℤ) (gen : ℕ → String × ℕ) :
    ∀ (cs : List NormPose) (st : List TrackedPose × ℕ) (log : List ℤ),
      (matchAux now gen cs st log).1 = cs.foldl (matchStep now gen) st := by
  intro cs
  induction cs with
  | nil => intro st log; rfl
  | cons c rest ih => intro st log; simp [matchAux, ih]

lemma matchAux_snd_length (now : ℤ) (gen : ℕ → String × ℕ) :
    ∀ (cs : List NormPose) (st : List TrackedPose × ℕ) (log : List ℤ),
      (matchAux now gen cs st log).2.length = log.length + cs.length := by
  intro cs
  induction cs with
  | nil => intro st log; simp [matchAux]
  | cons c rest ih =>
      intro st log
      simp [matchAux, ih]
      omega

lemma updateMatched_get?_ne (ps : List TrackedPose) (i : ℕ)
    (kps : List Keypoint) (nw : ℤ) :
    ∀ j, j ≠ i → (updateMatched ps i kps nw).get? j = ps.get? j := by
  induction ps generalizing i with
  | nil => intro j _; rfl
  | cons t ts ih =>
      intro j hj
      cases i with
      | zero =>
          cases j with
          | zero => exact absurd rfl hj
          | succ k => rfl
      | succ m =>
          cases j with
          | zero => rfl
          | succ k =>
              simp only [updateMatched, List.get?]
              exact ih m k (by omega)

lemma scanAux_snd_spec (ckps : List Keypoint) :
    ∀ (ps : List TrackedPose) (i : ℕ) (acc : ℝ × ℤ),
      (scanAux ckps ps i acc).2 = acc.2 ∨
      ∃ j : ℕ, i ≤ j ∧ j < i + ps.length ∧
        (scanAux ckps ps i acc).2 = (j : ℤ) := by
  intro ps
  induction ps with
  | nil => intro i acc; left; rfl
  | cons t ts ih =>
      intro i acc
      rcases h : calculatePoseDistance ckps t.keypoints with _ | d
      · have hred : scanAux ckps (t :: ts) i acc =
            scanAux ckps ts (i + 1) acc := by
          simp [scanAux, h]
        rw [hred]
        rcases ih (i + 1) acc with h1 | ⟨j, hj1, hj2, hj3⟩
        · left; exact h1
        · right
          exact ⟨j, by omega, by simp only [List.length_cons]; omega, hj3⟩
      · have hred : scanAux ckps (t :: ts) i acc =
            scanAux ckps ts (i + 1)
              (if d < acc.1 then (d, (i : ℤ)) else acc) := by
          simp [scanAux, h]
        rw [hred]
        by_cases hd : d < acc.1
        · rw [if_pos hd]
          rcases ih (i + 1) (d, (i : ℤ)) with h1 | ⟨j, hj1, hj2, hj3⟩
          · right
            exact ⟨i, le_refl i, by simp only [List.length_cons]; omega, h1⟩
          · right
            exact ⟨j, by omega, by simp only [List.length_cons]; omega, hj3⟩
        · rw [if_neg hd]
          rcases ih (i + 1) acc with h1 | ⟨j, hj1, hj2, hj3⟩
          · left; exact h1
          · right
            exact ⟨j, by omega, by simp only [List.length_cons]; omega, hj3⟩

lemma scanClosest_snd_spec (ckps : List Keypoint) (ps : List TrackedPose) :
    (scanClosest ckps ps).2 = -1 ∨
    ∃ j : ℕ, j < ps.length ∧ (scanClosest ckps ps).2 = (j : ℤ) := by
  rcases scanAux_snd_spec ckps ps 0 (40, -1) with h | ⟨j, _, hj2, hj3⟩
  · left; exact h
  · right; exact ⟨j, by omega, hj3⟩

lemma scanClosest_pair_near_inf (ckps : List Keypoint)
    (t1 t2 : TrackedPose) (d : ℝ)
    (h1 : calculatePoseDistance ckps t1.keypoints = some d) (hd : d < 40)
    (h2 : calculatePoseDistance ckps t2.keypoints = none) :
    scanClosest ckps [t1, t2] = (d, 0) := by
  simp [scanClosest, scanAux, h1, h2, hd]

/-- C1 (counterexample): with one tracked pose (a nose at the origin) and
two candidates (noses at x = 0 and x = 10), both candidates of the cycle
update tracked pose 0 — the matched pose is not removed from
consideration, so the per-cycle list of updated indices repeats. -/
theorem c1_counterexample :
    matchTrace 0 gen0 [poseNose] [candOrigin, candTen] = [0, 0] ∧
    ¬ (matchTrace 0 gen0 [poseNose] [candOrigin, candTen]).Nodup := by
  have d1 : calculatePoseDistance candOrigin.keypoints poseNose.keypoints =
      some 0 := by
    show calculatePoseDistance [kpt "nose" 0 0] [kpt "nose" 0 0] = some 0
    rw [cpd_nose_nose]
    norm_num
  have d2 : calculatePoseDistance candTen.keypoints poseNose.keypoints =
      some 10 := by
    show calculatePoseDistance [kpt "nose" 10 0] [kpt "nose" 0 0] = some 10
    rw [cpd_nose_nose]
    rw [show ((10:ℝ) - 0) ^ 2 = 10 ^ 2 by norm_num,
      Real.sqrt_sq (by norm_num : (0:ℝ) ≤ 10)]
  have s1 : scanClosest candOrigin.keypoints [poseNose] = (0, 0) :=
    scanClosest_single_near _ _ 0 d1 (by norm_num)
  have s2 : scanClosest candTen.keypoints [poseNose] = (10, 0) :=
    scanClosest_single_near _ _ 10 d2 (by norm_num)
  have m1 : matchedIndex candOrigin ([poseNose], 0) = 0 := by
    norm_num [matchedIndex, s1]
  have m2 : matchedIndex candTen ([poseNose], 0) = 0 := by
    norm_num [matchedIndex, s2]
  have u1 : matchStep 0 gen0 ([poseNose], 0) candOrigin =
      ([poseNose], 0) := by
    rw [matchStep_update 0 gen0 ([poseNose], 0) candOrigin
      (by norm_num [s1]) (by norm_num [s1])]
    simp only [s1]
    simp [updateMatched, poseNose, candOrigin]
  have key : matchTrace 0 gen0 [poseNose] [candOrigin, candTen] =
      [0, 0] := by
    simp only [matchTrace, matchAux, u1, m1, m2, List.nil_append]
    rfl
  refine ⟨key, ?_⟩
  rw [key]
  decide

/-- C1 (amended): each candidate updates at most one tracked pose per
matching-loop step — every position of the tracked list other than the
one `matchedIndex` names is unchanged by the step (a spawned pose is
appended beyond the existing positions), and the loop logs exactly one
matched index per candidate. A matched tracked pose, however, is not
removed from consideration, so a later candidate of the same cycle may
update the same tracked pose again (see the counterexample). -/
theorem c1_each_candidate_updates_at_most_one_pose
    (now : ℤ) (gen : ℕ → String × ℕ) (st : List TrackedPose × ℕ)
    (c : NormPose) (poses : List TrackedPose) (cs : List NormPose) :
    (∀ j : ℕ, j < st.1.length → (j : ℤ) ≠ matchedIndex c st →
      (matchStep now gen st c).1.get? j = st.1.get? j) ∧
    (matchTrace now gen poses cs).length = cs.length := by
  constructor
  · intro j hj hne
    by_cases h : (scanClosest c.keypoints st.1).2 ≠ -1 ∧
        (scanClosest c.keypoints st.1).1 < 40
    · rw [matchStep_update now gen st c h.1 h.2]
      have hm : matchedIndex c st = (scanClosest c.keypoints st.1).2 := by
        simp only [matchedIndex]
        rw [if_pos h]
      rcases scanClosest_snd_spec c.keypoints st.1 with hid | ⟨j0, _, hj0e⟩
      · exact absurd hid h.1
      · have hne' : (j : ℤ) ≠ (j0 : ℤ) := by
          rw [hm, hj0e] at hne
          exact hne
        apply updateMatched_get?_ne
        rw [hj0e]
        omega
    · by_cases h2 : ¬ isTooClose c.keypoints st.1 ∧
          8 ≤ c.keypoints.length
      · rw [matchStep_spawn now gen st c h h2.1 h2.2]
        rw [List.get?_eq_getElem?, List.get?_eq_getElem?]
        exact List.getElem?_append_left hj
      · rw [matchStep_skip now gen st c h h2]
  · simp [matchTrace, matchAux_snd_length]

/-- Witness for C1: a candidate matching the first of two tracked poses
leaves the second tracked pose exactly as it was. -/
theorem c1_single_update_witness :
    (matchStep 0 gen0 ([poseNose, poseQuiet], 0) candOrigin).1.get? 1 =
      some poseQuiet := by
  have d1 : calculatePoseDistance candOrigin.keypoints poseNose.keypoints =
      some 0 := by
    show calculatePoseDistance [kpt "nose" 0 0] [kpt "nose" 0 0] = some 0
    rw [cpd_nose_nose]
    norm_num
  have d2 : calculatePoseDistance candOrigin.keypoints
      poseQuiet.keypoints = none := cpd_right_pad7 _
  have hs : scanClosest candOrigin.keypoints [poseNose, poseQuiet] =
      (0, 0) := scanClosest_pair_near_inf _ _ _ 0 d1 (by norm_num) d2
  have hm : matchedIndex candOrigin ([poseNose, poseQuiet], 0) = 0 := by
    norm_num [matchedIndex, hs]
  have h := (c1_each_candidate_updates_at_most_one_pose 0 gen0
    ([poseNose, poseQuiet], 0) candOrigin [] []).1 1 (by norm_num)
    (by rw [hm]; norm_num)
  simpa using h

lemma reconcile_quiet_nil : reconcile 100 gen0 [poseQuiet] [] = [poseQuiet] := by
  rfl

/-- Witness for C2: a pose seen at t=100 survives a cycle at t=100 and its
age is within the staleness window. -/
theorem c2_staleness_witness :
    poseQuiet ∈ reconcile 100 gen0 [poseQuiet] [] ∧
    (100 : ℤ) - poseQuiet.lastSeen < 1500 := by
  have hm : poseQuiet ∈ reconcile 100 gen0 [poseQuiet] [] := by
    rw [reconcile_quiet_nil]
    exact List.mem_singleton.mpr rfl
  exact ⟨hm,
    (c2_returned_poses_within_staleness_window 100 gen0 [poseQuiet] []).1
      poseQuiet hm⟩

/-- Witness for C10: a surviving pose of a concrete cycle has at least 7
keypoints. -/
theorem c10_keypoint_floor_witness :
    7 ≤ poseQuiet.keypoints.length := by
  exact (c10_keypoint_count_floor 100 gen0 [poseQuiet] []).1 poseQuiet
    (by rw [reconcile_quiet_nil]; exact List.mem_singleton.mpr rfl)

lemma updateMatched_get?_eq (ps : List TrackedPose) (i : ℕ)
    (kps : List Keypoint) (nw : ℤ) (q : TrackedPose)
    (h : ps.get? i = some q) :
    (updateMatched ps i kps nw).get? i = some ⟨q.id, kps, nw, q.hue⟩ := by
  induction ps generalizing i with
  | nil => simp [List.get?] at h
  | cons t ts ih =>
      cases i with
      | zero =>
          have ht : t = q := by simpa [List.get?] using h
          subst ht
          rfl
      | succ m =>
          simp only [updateMatched, List.get?]
          exact ih m (by simpa [List.get?] using h)

lemma mem_updateMatched {p : TrackedPose} (ps : List TrackedPose) (i : ℕ)
    (kps : List Keypoint) (nw : ℤ)
    (h : p ∈ updateMatched ps i kps nw) :
    ∃ q ∈ ps, p.id = q.id ∧ p.hue = q.hue := by
  induction ps generalizing i with
  | nil => simp [updateMatched] at h
  | cons t ts ih =>
      cases i with
      | zero =>
          rcases List.mem_cons.mp h with h1 | h1
          · exact ⟨t, List.mem_cons_self t ts, by rw [h1], by rw [h1]⟩
          · exact ⟨p, List.mem_cons_of_mem _ h1, rfl, rfl⟩
      | succ m =>
          rcases List.mem_cons.mp h with h1 | h1
          · exact ⟨t, List.mem_cons_self t ts, by rw [h1], by rw [h1]⟩
          · rcases ih m h1 with ⟨q, hq, hid, hhue⟩
            exact ⟨q, List.mem_cons_of_mem _ hq, hid, hhue⟩

lemma matchStep_mem_origin {p : TrackedPose} (now : ℤ)
    (gen : ℕ → String × ℕ) (st : List TrackedPose × ℕ) (c : NormPose)
    (h : p ∈ (matchStep now gen st c).1) :
    (∃ q ∈ st.1, p.id = q.id ∧ p.hue = q.hue) ∨
    ∃ m : ℕ, p.id = (gen m).1 ∧ p.hue = (gen m).2 := by
  by_cases h1 : (scanClosest c.keypoints st.1).2 ≠ -1 ∧
      (scanClosest c.keypoints st.1).1 < 40
  · rw [matchStep_update now gen st c h1.1 h1.2] at h
    exact Or.inl (mem_updateMatched _ _ _ _ h)
  · by_cases h2 : ¬ isTooClose c.keypoints st.1 ∧ 8 ≤ c.keypoints.length
    · rw [matchStep_spawn now gen st c h1 h2.1 h2.2] at h
      rcases List.mem_append.mp h with h3 | h3
      · exact Or.inl ⟨p, h3, rfl, rfl⟩
      · have hp := List.mem_singleton.mp h3
        exact Or.inr ⟨st.2, by rw [hp], by rw [hp]⟩
    · rw [matchStep_skip now gen st c h1 h2] at h
      exact Or.inl ⟨p, h, rfl, rfl⟩

lemma foldl_matchStep_mem_origin (now : ℤ) (gen : ℕ → String × ℕ) :
    ∀ (cs : List NormPose) (st : List TrackedPose × ℕ) (p : TrackedPose),
      p ∈ (cs.foldl (matchStep now gen) st).1 →
      (∃ q ∈ st.1, p.id = q.id ∧ p.hue = q.hue) ∨
      ∃ m : ℕ, p.id = (gen m).1 ∧ p.hue = (gen m).2 := by
  intro cs
  induction cs with
  | nil => intro st p h; exact Or.inl ⟨p, h, rfl, rfl⟩
  | cons c rest ih =>
      intro st p h
      simp only [List.foldl_cons] at h
      rcases ih _ p h with h1 | h1
      · rcases h1 with ⟨q, hq, hid, hhue⟩
        rcases matchStep_mem_origin now gen st c hq with h2 | h2
        · rcases h2 with ⟨r, hr, hid2, hhue2⟩
          exact Or.inl ⟨r, hr, hid.trans hid2, hhue.trans hhue2⟩
        · rcases h2 with ⟨m, hm1, hm2⟩
          exact Or.inr ⟨m, hid.trans hm1, hhue.trans hm2⟩
      · exact Or.inr h1

lemma reconcile_mem_origin (now : ℤ) (gen : ℕ → String × ℕ)
    (poses : List TrackedPose) (cs : List NormPose) (p : TrackedPose)
    (h : p ∈ reconcile now gen poses cs) :
    (∃ q ∈ poses, p.id = q.id ∧ p.hue = q.hue) ∨
    ∃ m : ℕ, p.id = (gen m).1 ∧ p.hue = (gen m).2 := by
  rw [reconcile] at h
  have h1 := (List.mem_filter.mp h).1
  have h2 := (List.mem_filter.mp h1).1
  exact foldl_matchStep_mem_origin now gen cs (poses, 0) p h2

lemma runCycles_mem_origin :
    ∀ (cycles : List (ℤ × (ℕ → String × ℕ) × List NormPose))
      (poses : List TrackedPose) (p : TrackedPose),
      p ∈ runCycles poses cycles →
      (∃ q ∈ poses, p.id = q.id ∧ p.hue = q.hue) ∨
      ∃ cyc ∈ cycles, ∃ m : ℕ,
        p.id = (cyc.2.1 m).1 ∧ p.hue = (cyc.2.1 m).2 := by
  intro cycles
  induction cycles with
  | nil => intro poses p h; exact Or.inl ⟨p, h, rfl, rfl⟩
  | cons cyc rest ih =>
      intro poses p h
      have h' : p ∈ runCycles (reconcile cyc.1 cyc.2.1 poses cyc.2.2)
          rest := h
      rcases ih _ p h' with h1 | h1
      · rcases h1 with ⟨q, hq, hid, hhue⟩
        rcases reconcile_mem_origin cyc.1 cyc.2.1 poses cyc.2.2 q hq
            with h2 | h2
        · rcases h2 with ⟨r, hr, hid2, hhue2⟩
          exact Or.inl ⟨r, hr, hid.trans hid2, hhue.trans hhue2⟩
        · rcases h2 with ⟨m, hm1, hm2⟩
          exact Or.inr ⟨cyc, List.mem_cons_self _ _, m, hid.trans hm1,
            hhue.trans hm2⟩
      · rcases h1 with ⟨cyc2, hcyc2, m, hm1, hm2⟩
        exact Or.inr ⟨cyc2, List.mem_cons_of_mem _ hcyc2, m, hm1, hm2⟩

/-- C3: a candidate that matches tracked pose `j` replaces that pose's
keypoints wholesale with its own and sets lastSeen to `now`, while the id
and hue fields are left unchanged; consequently the id and hue of every
pose surviving any succession of reconcile cycles come unchanged from the
initial tracked set or, for a spawned pose, from the spawn oracle of one
of the cycles. -/
theorem c3_matched_update_preserves_identity
    (now : ℤ) (gen : ℕ → String × ℕ) (st : List TrackedPose × ℕ)
    (c : NormPose) (poses : List TrackedPose)
    (cycles : List (ℤ × (ℕ → String × ℕ) × List NormPose)) :
    ((scanClosest c.keypoints st.1).2 ≠ -1 →
      (scanClosest c.keypoints st.1).1 < 40 →
      ∀ q : TrackedPose,
        st.1.get? (scanClosest c.keypoints st.1).2.toNat = some q →
        (matchStep now gen st c).1.get?
            (scanClosest c.keypoints st.1).2.toNat =
          some ⟨q.id, c.keypoints, now, q.hue⟩) ∧
    ∀ p ∈ runCycles poses cycles,
      (∃ q ∈ poses, p.id = q.id ∧ p.hue = q.hue) ∨
      ∃ cyc ∈ cycles, ∃ m : ℕ,
        p.id = (cyc.2.1 m).1 ∧ p.hue = (cyc.2.1 m).2 := by
  constructor
  · intro h1 h2 q hq
    rw [matchStep_update now gen st c h1 h2]
    exact updateMatched_get?_eq st.1 _ c.keypoints now q hq
  · intro p hp
    exact runCycles_mem_origin cycles poses p hp

/-- Witness for C3: a candidate nose at x=10 matches the tracked nose pose
at the origin; the pose's keypoints become the candidate's and lastSeen
becomes the cycle time while its id and hue are kept. -/
theorem c3_update_effect_witness :
    (matchStep 0 gen0 ([poseNose], 0) candTen).1.get? 0 =
      some ⟨poseNose.id, candTen.keypoints, 0, poseNose.hue⟩ := by
  have d2 : calculatePoseDistance candTen.keypoints poseNose.keypoints =
      some 10 := by
    show calculatePoseDistance [kpt "nose" 10 0] [kpt "nose" 0 0] = some 10
    rw [cpd_nose_nose]
    rw [show ((10:ℝ) - 0) ^ 2 = 10 ^ 2 by norm_num,
      Real.sqrt_sq (by norm_num : (0:ℝ) ≤ 10)]
  have s2 : scanClosest candTen.keypoints [poseNose] = (10, 0) :=
    scanClosest_single_near _ _ 10 d2 (by norm_num)
  have h := (c3_matched_update_preserves_identity 0 gen0 ([poseNose], 0)
    candTen [] []).1 (by norm_num [s2]) (by norm_num [s2]) poseNose
    (by simp [s2, List.get?])
  simpa [s2] using h

/-- C5 (counterexample): the claimed equivalence fails — a candidate with
seven keypoints, unmatched and beyond the duplicate-suppression distance
from every tracked pose (there are none), still spawns nothing, because
the spawn path also requires at least 8 keypoints; and in the two-candidate
scenario (candidates 50px apart, the first matching the only tracked pose)
no new pose is spawned at all, not one. -/
theorem c5_counterexample :
    (matchStep 0 gen0 ([], 0) candSeven = ([], 0) ∧
      ¬ isTooClose candSeven.keypoints []) ∧
    ([candNose0, candNose50].foldl (matchStep 0 gen0)
        ([poseNose8], 0)).1.length = 1 := by
  have dA : calculatePoseDistance candNose0.keypoints
      poseNose8.keypoints = some 0 := by
    show calculatePoseDistance (kpt "nose" 0 0 :: pad7)
      (kpt "nose" 0 0 :: pad7) = some 0
    rw [cpd_nosepad_nosepad]
    norm_num
  have sA : scanClosest candNose0.keypoints [poseNose8] = (0, 0) :=
    scanClosest_single_near _ _ 0 dA (by norm_num)
  have uA : matchStep 0 gen0 ([poseNose8], 0) candNose0 =
      ([poseNose8], 0) := by
    rw [matchStep_update 0 gen0 ([poseNose8], 0) candNose0
      (by norm_num [sA]) (by norm_num [sA])]
    simp only [sA]
    simp [updateMatched, poseNose8, candNose0]
  have dB : calculatePoseDistance candNose50.keypoints
      poseNose8.keypoints = some 50 := by
    show calculatePoseDistance (kpt "nose" 50 0 :: pad7)
      (kpt "nose" 0 0 :: pad7) = some 50
    rw [cpd_nosepad_nosepad]
    rw [show ((50:ℝ) - 0) ^ 2 = 50 ^ 2 by norm_num,
      Real.sqrt_sq (by norm_num : (0:ℝ) ≤ 50)]
  have sB : scanClosest candNose50.keypoints [poseNose8] = (40, -1) :=
    scanClosest_single_far _ _ 50 dB (by norm_num)
  have htc : isTooClose candNose50.keypoints [poseNose8] := by
    refine ⟨poseNose8, List.mem_singleton.mpr rfl, ?_⟩
    rw [dB]
    show (50 : ℝ) < 100
    norm_num
  have uB : matchStep 0 gen0 ([poseNose8], 0) candNose50 =
      ([poseNose8], 0) := by
    apply matchStep_skip
    · norm_num [sB]
    · intro hcon
      exact hcon.1 htc
  constructor
  · constructor
    · apply matchStep_skip
      · show ¬ ((scanClosest candSeven.keypoints [] ).2 ≠ -1 ∧
          (scanClosest candSeven.keypoints []).1 < 40)
        norm_num [scanClosest_nil]
      · intro hcon
        have : (8 : ℕ) ≤ 7 := by
          simpa [candSeven, pad7] using hcon.2
        omega
    · simp [isTooClose]
  · simp only [List.foldl_cons, List.foldl_nil, uA, uB]
    rfl

/-- C5 (amended): an unmatched candidate spawns a new tracked pose — with
id and hue drawn from the spawn oracle — if and only if it is not within
the duplicate-suppression threshold (100px) of any tracked pose AND has
at least 8 keypoints; and of two simultaneous candidates within the
duplicate-suppression threshold of each other where the first matches an
existing tracked pose, no new pose is spawned at all: the second
candidate either also matches a pose or is suppressed by the matched
pose's freshly updated position. -/
theorem c5_spawn_iff_far_and_eight_keypoints
    (now : ℤ) (gen : ℕ → String × ℕ) (st : List TrackedPose × ℕ)
    (c a b : NormPose) (poses : List TrackedPose) (k : ℕ) :
    (¬ ((scanClosest c.keypoints st.1).2 ≠ -1 ∧
        (scanClosest c.keypoints st.1).1 < 40) →
      (matchStep now gen st c =
          (st.1 ++ [⟨(gen st.2).1, c.keypoints, now, (gen st.2).2⟩],
           st.2 + 1) ↔
        (¬ isTooClose c.keypoints st.1 ∧ 8 ≤ c.keypoints.length))) ∧
    ((scanClosest a.keypoints poses).2 ≠ -1 →
      (scanClosest a.keypoints poses).1 < 40 →
      distLT (calculatePoseDistance b.keypoints a.keypoints) 100 →
      ([a, b].foldl (matchStep now gen) (poses, k)).1.length =
        poses.length) := by
  constructor
  · intro h
    constructor
    · intro heq
      by_cases h2 : ¬ isTooClose c.keypoints st.1 ∧ 8 ≤ c.keypoints.length
      · exact h2
      · exfalso
        rw [matchStep_skip now gen st c h h2] at heq
        have hlen := congrArg (fun z => z.1.length) heq
        simp at hlen
    · intro h2
      exact matchStep_spawn now gen st c h h2.1 h2.2
  · intro h1 h2 hb
    rcases scanClosest_snd_spec a.keypoints poses with hid | ⟨j0, hj0, hj0e⟩
    · exact absurd hid h1
    · have hu : matchStep now gen (poses, k) a =
          (updateMatched poses (scanClosest a.keypoints poses).2.toNat
            a.keypoints now, k) :=
        matchStep_update now gen (poses, k) a h1 h2
      have hq : poses.get? j0 = some (poses.get ⟨j0, hj0⟩) :=
        List.get?_eq_get hj0
      have hnew : (updateMatched poses
            (scanClosest a.keypoints poses).2.toNat a.keypoints now).get?
            j0 =
          some ⟨(poses.get ⟨j0, hj0⟩).id, a.keypoints, now,
            (poses.get ⟨j0, hj0⟩).hue⟩ := by
        rw [hj0e]
        simp only [Int.toNat_natCast]
        exact updateMatched_get?_eq poses j0 a.keypoints now _ hq
      have hmem : (⟨(poses.get ⟨j0, hj0⟩).id, a.keypoints, now,
          (poses.get ⟨j0, hj0⟩).hue⟩ : TrackedPose) ∈
          updateMatched poses (scanClosest a.keypoints poses).2.toNat
            a.keypoints now :=
        List.get?_mem hnew
      have htc : isTooClose b.keypoints
          (updateMatched poses (scanClosest a.keypoints poses).2.toNat
            a.keypoints now) :=
        ⟨_, hmem, hb⟩
      have hlen1 : (updateMatched poses
          (scanClosest a.keypoints poses).2.toNat a.keypoints now).length =
          poses.length := updateMatched_length _ _ _ _
      simp only [List.foldl_cons, List.foldl_nil, hu]
      set ps1 := updateMatched poses
        (scanClosest a.keypoints poses).2.toNat a.keypoints now with hps1
      by_cases hb1 : (scanClosest b.keypoints ps1).2 ≠ -1 ∧
          (scanClosest b.keypoints ps1).1 < 40
      · rw [matchStep_update now gen (ps1, k) b hb1.1 hb1.2]
        simpa [updateMatched_length] using hlen1
      · have hb2 : ¬ (¬ isTooClose b.keypoints ps1 ∧
            8 ≤ b.keypoints.length) := by
          intro hcon
          exact hcon.1 htc
        rw [matchStep_skip now gen (ps1, k) b hb1 hb2]
        exact hlen1

/-- Witness for C5: an eight-keypoint candidate far (infinitely far) from
every tracked pose spawns exactly one new pose carrying the oracle's id
and hue. -/
theorem c5_spawn_witness :
    matchStep 0 gen0 ([], 0) cand8 =
      ([⟨(gen0 0).1, cand8.keypoints, 0, (gen0 0).2⟩], 1) := by
  have h := (c5_spawn_iff_far_and_eight_keypoints 0 gen0 ([], 0) cand8
    cand8 cand8 [] 0).1 (by norm_num [scanClosest_nil])
  exact h.mpr ⟨by simp [isTooClose], by simp [cand8, pad7]⟩

lemma candidatePoses_eq_filterMap (cw ch vw vh : ℝ) :
    ∀ l : List RawPose,
      candidatePoses cw ch vw vh l = l.filterMap (normOne cw ch vw vh) := by
  intro l
  induction l with
  | nil => rfl
  | cons p rest ih =>
      simp only [candidatePoses] at ih ⊢
      by_cases h1 : avgScore p > 0.45
      · rw [List.filter_cons_of_pos (by simpa using h1), List.map_cons]
        by_cases h2 : 7 ≤ (normalizePose cw ch vw vh p).keypoints.length
        · rw [List.filter_cons_of_pos (by simpa using h2),
            List.filterMap_cons_some
              (by rw [normOne, if_pos h1, if_pos h2]), ih]
        · rw [List.filter_cons_of_neg (by simpa using h2),
            List.filterMap_cons_none
              (by rw [normOne, if_pos h1, if_neg h2]), ih]
      · rw [List.filter_cons_of_neg (by simpa using h1),
          List.filterMap_cons_none (by rw [normOne, if_neg h1]), ih]

/-- C6: the normalizer's quality gate. Every keypoint of every produced
candidate has a present score strictly above the 0.4 per-joint floor; a
raw pose yields a candidate if and only if its mean confidence exceeds
0.45 and at least 7 keypoints survive the floor; and the pipeline equals
the per-pose gate filter-mapped over the raw poses, so a rejected pose
contributes nothing to the candidate list (no error). -/
theorem c6_normalizer_quality_gate (cw ch vw vh : ℝ)
    (rawPoses : List RawPose) :
    (candidatePoses cw ch vw vh rawPoses =
      rawPoses.filterMap (normOne cw ch vw vh)) ∧
    (∀ p : RawPose,
      ((∃ cand, normOne cw ch vw vh p = some cand) ↔
        (avgScore p > 0.45 ∧
          7 ≤ (normalizePose cw ch vw vh p).keypoints.length))) ∧
    ∀ cand ∈ candidatePoses cw ch vw vh rawPoses,
      ∀ kp ∈ cand.keypoints, ∃ s, kp.score = some s ∧ (0.4 : ℝ) < s := by
  refine ⟨candidatePoses_eq_filterMap cw ch vw vh rawPoses, ?_, ?_⟩
  · intro p
    constructor
    · rintro ⟨cand, hcand⟩
      by_cases h1 : avgScore p > 0.45
      · by_cases h2 : 7 ≤ (normalizePose cw ch vw vh p).keypoints.length
        · exact ⟨h1, h2⟩
        · rw [normOne, if_pos h1, if_neg h2] at hcand
          exact absurd hcand (by simp)
      · rw [normOne, if_neg h1] at hcand
        exact absurd hcand (by simp)
    · rintro ⟨h1, h2⟩
      exact ⟨normalizePose cw ch vw vh p, by rw [normOne, if_pos h1,
        if_pos h2]⟩
  · intro cand hcand kp hkp
    rw [candidatePoses] at hcand
    rcases List.mem_map.mp (List.mem_filter.mp hcand).1 with ⟨p, _, hp⟩
    rw [← hp] at hkp
    rw [normalizePose] at hkp
    rcases List.mem_map.mp hkp with ⟨kp0, hkp0, htr⟩
    have hsc : scoreOk kp0.score := by
      classical
      have h := (List.mem_filter.mp hkp0).2
      simpa only [decide_eq_true_eq] using h
    rcases hs0 : kp0.score with _ | s
    · rw [hs0] at hsc
      exact absurd hsc (by simp [scoreOk])
    · refine ⟨s, ?_, ?_⟩
      · rw [← htr]
        simpa using hs0
      · rw [hs0] at hsc
        exact hsc

lemma avgScore_rawPose8 : avgScore rawPose8 > 0.45 := by
  norm_num [avgScore, rawPose8, rawKp]

lemma normalizePose_rawPose8_len :
    7 ≤ (normalizePose 1 1 1 1 rawPose8).keypoints.length := by
  classical
  have hone : decide (scoreOk (some (1 : ℝ))) = true := by
    simp only [decide_eq_true_eq, scoreOk]
    norm_num
  have hfil : rawPose8.keypoints.filter
      (fun kp => decide (scoreOk kp.score)) = rawPose8.keypoints := by
    simp only [rawPose8, rawKp]
    simp only [List.filter_cons, hone, if_true, List.filter_nil]
  rw [normalizePose]
  simp only [hfil, List.length_map]
  simp [rawPose8]

/-- Witness for C6: an eight-keypoint fully confident raw pose passes the
gate, and each of its normalized keypoints keeps a score above 0.4. -/
theorem c6_gate_witness :
    (∃ cand, normOne 1 1 1 1 rawPose8 = some cand) ∧
    ∀ kp ∈ (normalizePose 1 1 1 1 rawPose8).keypoints,
      ∃ s, kp.score = some s ∧ (0.4 : ℝ) < s := by
  have h1 := avgScore_rawPose8
  have h2 := normalizePose_rawPose8_len
  have hsome := ((c6_normalizer_quality_gate 1 1 1 1 [rawPose8]).2.1
    rawPose8).mpr ⟨h1, h2⟩
  refine ⟨hsome, ?_⟩
  have hmem : normalizePose 1 1 1 1 rawPose8 ∈
      candidatePoses 1 1 1 1 [rawPose8] := by
    rw [(c6_normalizer_quality_gate 1 1 1 1 [rawPose8]).1]
    rw [List.filterMap_cons_some (by rw [normOne, if_pos h1, if_pos h2])]
    exact List.mem_singleton.mpr rfl
  exact fun kp hkp =>
    (c6_normalizer_quality_gate 1 1 1 1 [rawPose8]).2.2 _ hmem kp hkp

/-- C9 (counterexample): a failed detector cycle is not the same as a
zero-candidate cycle — with a stale tracked pose (last seen 1900ms ago),
the error cycle keeps the pose while the zero-candidate cycle evicts it. -/
theorem c9_counterexample :
    cycleResult (.error ()) 1 1 1 1 2000 gen0 [poseQuiet] =
      [poseQuiet] ∧
    cycleResult (.ok []) 1 1 1 1 2000 gen0 [poseQuiet] = [] ∧
    cycleResult (.error ()) 1 1 1 1 2000 gen0 [poseQuiet] ≠
      cycleResult (.ok []) 1 1 1 1 2000 gen0 [poseQuiet] := by
  refine ⟨rfl, rfl, ?_⟩
  intro h
  have : ([poseQuiet] : List TrackedPose) = [] := h
  simp at this

/-- C9 (amended): a detector throw or rejection is caught and never
propagated — the loop releases its reentrancy guard and carries on — but
the cycle is not treated as zero candidates: the catch block skips the
reconcile entirely, so the tracked-pose set is left completely unchanged
(no aging or eviction on the failed cycle), whereas a zero-candidate
cycle ages the set and evicts every stale pose. -/
theorem c9_error_cycle_leaves_poses_unchanged
    (cw ch vw vh : ℝ) (now : ℤ) (gen : ℕ → String × ℕ)
    (poses : List TrackedPose) (e : Unit) (s : LoopState) :
    cycleResult (.error e) cw ch vw vh now gen poses = poses ∧
    finishDetection (.error e) cw ch vw vh now gen s =
      ({ s with isDetecting := false, inFlight := s.inFlight - 1 },
       ⟨false, none⟩) ∧
    ∀ p ∈ poses, 1500 ≤ now - p.lastSeen →
      p ∈ cycleResult (.error e) cw ch vw vh now gen poses ∧
      p ∉ cycleResult (.ok []) cw ch vw vh now gen poses := by
  refine ⟨rfl, rfl, ?_⟩
  intro p hp hstale
  refine ⟨hp, ?_⟩
  intro hmem
  have hmem2 : p ∈ reconcile now gen poses [] := hmem
  exact absurd (reconcile_mem_fresh now gen poses [] p hmem2)
    (by linarith)

/-- Witness for C9: at t=2000 a pose last seen at t=100 survives the
error cycle but is evicted by the zero-candidate cycle. -/
theorem c9_error_vs_empty_witness :
    poseQuiet ∈ cycleResult (.error ()) 1 1 1 1 2000 gen0 [poseQuiet] ∧
    poseQuiet ∉ cycleResult (.ok []) 1 1 1 1 2000 gen0 [poseQuiet] := by
  exact (c9_error_cycle_leaves_poses_unchanged 1 1 1 1 2000 gen0
    [poseQuiet] ()
    ⟨true, true, true, true, true, false, false, 0, 0, []⟩).2.2
    poseQuiet (List.mem_singleton.mpr rfl) (by norm_num [poseQuiet])

lemma tick_inv {s : LoopState}
    (ih : s.inFlight = if s.isDetecting then 1 else 0) :
    (tick s).1.inFlight = if (tick s).1.isDetecting then 1 else 0 := by
  by_cases hg : (!s.hasDetector || !s.hasVideo || !s.hasCanvas ||
      !s.videoReady || s.isDetecting || s.isLoading) = true
  · rw [tick, if_pos hg]
    exact ih
  · rw [tick, if_neg hg]
    cases hdet : s.isDetecting with
    | true => exact absurd (by simp [hdet]) hg
    | false =>
        have hif : s.inFlight = 0 := by
          rw [hdet] at ih
          simpa using ih
        by_cases hctx : (!s.hasCtx) = true
        · rw [if_pos hctx]
          simpa using hif
        · rw [if_neg hctx]
          by_cases hmod : ((s.frameCount + 1) % 15 == 0) = true
          · rw [if_pos hmod]
            simp [hif]
          · rw [if_neg hmod]
            simpa using hif

lemma finish_inv {s : LoopState} (res : Except Unit (List RawPose))
    (cw ch vw vh : ℝ) (now : ℤ) (gen : ℕ → String × ℕ)
    (hfl : 0 < s.inFlight)
    (ih : s.inFlight = if s.isDetecting then 1 else 0) :
    (finishDetection res cw ch vw vh now gen s).1.inFlight =
      if (finishDetection res cw ch vw vh now gen s).1.isDetecting
      then 1 else 0 := by
  have h1 : s.inFlight = 1 := by
    cases hd : s.isDetecting with
    | true => rw [hd] at ih; simpa using ih
    | false =>
        rw [hd] at ih
        simp at ih
        omega
  cases res with
  | error e => simp [finishDetection, h1]
  | ok raw => simp [finishDetection, h1]

lemma reachable_inFlight_inv {s : LoopState} (h : ReachableState s) :
    s.inFlight = if s.isDetecting then 1 else 0 := by
  induction h with
  | init d v c r x l => rfl
  | step hs hstep ih =>
      cases hstep with
      | tick => exact tick_inv ih
      | finish res cw ch vw vh now gen hfl =>
          exact finish_inv res cw ch vw vh now gen hfl ih
      | env d v c r x l => exact ih

lemma reachable_tickN (n : ℕ) {s : LoopState} (h : ReachableState s) :
    ReachableState (tickN n s) := by
  induction n generalizing s with
  | zero => exact h
  | succ m ih => exact ih (ReachableState.step h (LoopStep.tick s))

lemma reachable_sReady : ReachableState sReady :=
  ReachableState.init true true true true true false

lemma reachable_sDetecting1 : ReachableState sDetecting1 :=
  reachable_tickN 15 reachable_sReady

/-- C7 (amended): in every reachable state of the loop, at most one
detector invocation is in flight, and a tick arriving while the
detection-in-progress flag is set invokes no detector call — but it does
not redraw either: the guard clause returns before any drawing, leaving
the state unchanged and the canvas as last drawn. -/
theorem c7_guard_at_most_one_in_flight (s : LoopState)
    (h : ReachableState s) :
    s.inFlight ≤ 1 ∧
    (s.isDetecting = true → tick s = (s, ⟨false, none⟩)) := by
  have hinv := reachable_inFlight_inv h
  constructor
  · rw [hinv]
    split <;> omega
  · intro hd
    rw [tick, if_pos (by simp [hd])]

lemma sDetecting1_eq :
    sDetecting1 = ⟨true, true, true, true, true, false, true, 15, 1, []⟩ :=
  rfl

lemma normalizePose_rawPose8_len_eq :
    (normalizePose 1 1 1 1 rawPose8).keypoints.length = 8 := by
  classical
  have hone : decide (scoreOk (some (1 : ℝ))) = true := by
    simp only [decide_eq_true_eq, scoreOk]
    norm_num
  have hfil : rawPose8.keypoints.filter
      (fun kp => decide (scoreOk kp.score)) = rawPose8.keypoints := by
    simp only [rawPose8, rawKp]
    simp only [List.filter_cons, hone, if_true, List.filter_nil]
  rw [normalizePose]
  simp only [hfil, List.length_map]
  simp [rawPose8]

lemma candidatePoses_rawPose8 :
    candidatePoses 1 1 1 1 [rawPose8] =
      [normalizePose 1 1 1 1 rawPose8] := by
  rw [candidatePoses_eq_filterMap]
  rw [List.filterMap_cons_some (by rw [normOne, if_pos avgScore_rawPose8,
    if_pos normalizePose_rawPose8_len])]
  rfl

lemma reconcile_spawn_rawPose8 :
    reconcile 0 gen0 [] (candidatePoses 1 1 1 1 [rawPose8]) =
      [⟨(gen0 0).1, (normalizePose 1 1 1 1 rawPose8).keypoints, 0,
        (gen0 0).2⟩] := by
  rw [candidatePoses_rawPose8, reconcile]
  simp only [List.foldl_cons, List.foldl_nil]
  rw [matchStep_spawn 0 gen0 ([], 0) _ (by norm_num [scanClosest_nil])
    (by simp [isTooClose]) (by rw [normalizePose_rawPose8_len_eq])]
  simp only [List.nil_append]
  rw [List.filter_cons_of_pos (by decide), List.filter_nil,
    List.filter_cons_of_pos (by simp [normalizePose_rawPose8_len_eq]),
    List.filter_nil]

lemma sF_eq :
    (finishDetection (.ok [rawPose8]) 1 1 1 1 0 gen0 sDetecting1).1 =
      ⟨true, true, true, true, true, false, false, 15, 0,
       [⟨(gen0 0).1, (normalizePose 1 1 1 1 rawPose8).keypoints, 0,
         (gen0 0).2⟩]⟩ := by
  show ({ sDetecting1 with
      trackedPoses := reconcile 0 gen0 sDetecting1.trackedPoses
        (candidatePoses 1 1 1 1 [rawPose8])
      isDetecting := false
      inFlight := sDetecting1.inFlight - 1 } : LoopState) = _
  rw [show sDetecting1.trackedPoses = [] from rfl, reconcile_spawn_rawPose8]
  rfl

lemma tickN15_ready (tp : List TrackedPose) :
    tickN 15 ⟨true, true, true, true, true, false, false, 15, 0, tp⟩ =
      ⟨true, true, true, true, true, false, true, 30, 1, tp⟩ := by
  norm_num [tickN, tick]

lemma sDetecting2_eq :
    sDetecting2 =
      ⟨true, true, true, true, true, false, true, 30, 1,
       [⟨(gen0 0).1, (normalizePose 1 1 1 1 rawPose8).keypoints, 0,
         (gen0 0).2⟩]⟩ := by
  show tickN 15 (finishDetection (.ok [rawPose8]) 1 1 1 1 0 gen0
    sDetecting1).1 = _
  rw [sF_eq]
  exact tickN15_ready _

lemma reachable_sDetecting2 : ReachableState sDetecting2 :=
  reachable_tickN 15 (ReachableState.step reachable_sDetecting1
    (LoopStep.finish sDetecting1 (.ok [rawPose8]) 1 1 1 1 0 gen0
      (by rw [show sDetecting1.inFlight = 1 from rfl]; omega)))

/-- C7 (counterexample): `sDetecting2` is a reachable loop state with a
detection in flight and a nonempty tracked set, and the tick that arrives
there draws nothing at all — it does not perform a redraw of the current
tracked-pose set as the claim states. -/
theorem c7_counterexample :
    ReachableState sDetecting2 ∧
    sDetecting2.isDetecting = true ∧
    (tick sDetecting2).2.calledDetector = false ∧
    (tick sDetecting2).2.drew = none ∧
    sDetecting2.trackedPoses ≠ [] ∧
    (tick sDetecting2).2.drew ≠ some sDetecting2.trackedPoses := by
  refine ⟨reachable_sDetecting2, ?_, ?_, ?_, ?_, ?_⟩
  · rw [sDetecting2_eq]
  · rw [sDetecting2_eq]
    simp [tick]
  · rw [sDetecting2_eq]
    simp [tick]
  · rw [sDetecting2_eq]
    simp
  · rw [sDetecting2_eq]
    simp [tick]

/-- Witness for C7: the reachable state fifteen ticks in has one call in
flight, and the tick arriving there is a guarded no-op. -/
theorem c7_guard_witness :
    sDetecting1.inFlight ≤ 1 ∧
    tick sDetecting1 = (sDetecting1, ⟨false, none⟩) := by
  have h := c7_guard_at_most_one_in_flight sDetecting1 reachable_sDetecting1
  exact ⟨h.1, h.2 (by rw [sDetecting1_eq])⟩
